import Mathlib

/-!
Verification development for `third_party/deps.py` (GrinlexGH/hammer-editor):
a shallow embedding of the dependency installation engine — the freshness
cache (git-hash / build-hash record file), the CMake build orchestration,
the manual copy-rule engine (pattern splitting, recursive glob, exclude
subtraction), and the top-level per-library processing loop — together with
theorems settling the specification's claims about it.

Paths are modelled as lists of path segments (`List String`), file contents
as lists of raw lines, and Python exceptions as an explicit error type
threaded through `Except`.
-/

namespace Deps

/-! ## Python string primitives used by the script -/

/-- Characters treated as whitespace by Python's `str.strip()`. -/
def isPySpace (c : Char) : Bool :=
  c = ' ' || c = '\t' || c = '\n' || c = '\x0b' || c = '\x0c' || c = '\r'

/-- Model of Python `str.strip()` (no arguments): removes leading and
trailing whitespace.  Used for `stdout.strip()` in `GetGitHash`. -/
def pyStrip (s : String) : String :=
  ⟨((s.data.dropWhile isPySpace).reverse.dropWhile isPySpace).reverse⟩

/-- Model of Python `str.rstrip("\n")`: removes every trailing newline
character.  Used by `WriteLineAt` / `ReadLineAt`. -/
def rstripNl (s : String) : String :=
  ⟨(s.data.reverse.dropWhile (· = '\n')).reverse⟩

/-! ## MD5 (Python `hashlib.md5(...).hexdigest()`)

`CMakeLibrary.GetBuildHash` computes `hashlib.md5("|".join(extra_args).encode()).hexdigest()`.
We embed MD5 over `Nat` with explicit reduction mod `2^32`. -/

/-- Reduce to 32 bits. -/
def m32 (n : Nat) : Nat := n % 4294967296

/-- Bitwise complement within 32 bits (Python `~x & 0xFFFFFFFF`). -/
def not32 (n : Nat) : Nat := n ^^^ 4294967295

/-- Rotate a 32-bit word left by `s` bits. -/
def rotl32 (x s : Nat) : Nat := m32 ((x <<< s) ||| (x >>> (32 - s)))

/-- MD5 per-round shift amounts. -/
def md5Shift : List Nat :=
  [7, 12, 17, 22, 7, 12, 17, 22, 7, 12, 17, 22, 7, 12, 17, 22,
   5, 9, 14, 20, 5, 9, 14, 20, 5, 9, 14, 20, 5, 9, 14, 20,
   4, 11, 16, 23, 4, 11, 16, 23, 4, 11, 16, 23, 4, 11, 16, 23,
   6, 10, 15, 21, 6, 10, 15, 21, 6, 10, 15, 21, 6, 10, 15, 21]

/-- MD5 per-round additive constants (floor(abs(sin(i+1)) * 2^32)). -/
def md5K : List Nat :=
  [3614090360, 3905402710, 606105819, 3250441966, 4118548399, 1200080426, 2821735955, 4249261313,
   1770035416, 2336552879, 4294925233, 2304563134, 1804603682, 4254626195, 2792965006, 1236535329,
   4129170786, 3225465664, 643717713, 3921069994, 3593408605, 38016083, 3634488961, 3889429448,
   568446438, 3275163606, 4107603335, 1163531501, 2850285829, 4243563512, 1735328473, 2368359562,
   4294588738, 2272392833, 1839030562, 4259657740, 2763975236, 1272893353, 4139469664, 3200236656,
   681279174, 3936430074, 3572445317, 76029189, 3654602809, 3873151461, 530742520, 3299628645,
   4096336452, 1126891415, 2878612391, 4237533241, 1700485571, 2399980690, 4293915773, 2240044497,
   1873313359, 4264355552, 2734768916, 1309151649, 4149444226, 3174756917, 718787259, 3951481745]

/-- UTF-8 encoding of one character, as byte values (Python `str.encode()`). -/
def utf8Bytes (c : Char) : List Nat :=
  let n := c.toNat
  if n < 128 then [n]
  else if n < 2048 then [192 ||| (n >>> 6), 128 ||| (n &&& 63)]
  else if n < 65536 then
    [224 ||| (n >>> 12), 128 ||| ((n >>> 6) &&& 63), 128 ||| (n &&& 63)]
  else
    [240 ||| (n >>> 18), 128 ||| ((n >>> 12) &&& 63),
     128 ||| ((n >>> 6) &&& 63), 128 ||| (n &&& 63)]

/-- UTF-8 bytes of a string. -/
def strBytes (s : String) : List Nat := s.data.flatMap utf8Bytes

/-- Little-endian byte decomposition (`count` bytes). -/
def leBytes (n count : Nat) : List Nat :=
  (List.range count).map (fun i => (n >>> (8 * i)) % 256)

/-- MD5 padding: append `0x80`, zero-fill to 56 mod 64 bytes, then the
message bit length as 8 little-endian bytes. -/
def md5Pad (msg : List Nat) : List Nat :=
  msg ++ [128] ++ List.replicate ((119 - msg.length % 64) % 64) 0
      ++ leBytes ((8 * msg.length) % 18446744073709551616) 8

/-- Split a byte list into 64-byte chunks (fuelled by the list length;
every step consumes at least one element, so the fuel is ample). -/
def chunksOf64Aux : Nat → List Nat → List (List Nat)
  | 0, _ => []
  | _ + 1, [] => []
  | fuel + 1, a :: rest => ((a :: rest).take 64) :: chunksOf64Aux fuel ((a :: rest).drop 64)

/-- Split a byte list into 64-byte chunks. -/
def chunksOf64 (l : List Nat) : List (List Nat) := chunksOf64Aux l.length l

/-- The sixteen little-endian 32-bit words of one 64-byte chunk. -/
def chunkWords (chunk : List Nat) : List Nat :=
  (List.range 16).map (fun i =>
    chunk.getD (4 * i) 0 + 256 * chunk.getD (4 * i + 1) 0
      + 65536 * chunk.getD (4 * i + 2) 0 + 16777216 * chunk.getD (4 * i + 3) 0)

/-- Running MD5 state (four 32-bit words). -/
structure Md5State where
  a : Nat
  b : Nat
  c : Nat
  d : Nat
deriving Repr, DecidableEq

/-- One of the 64 MD5 rounds. -/
def md5Round (ws : List Nat) (st : Md5State) (i : Nat) : Md5State :=
  let f :=
    if i < 16 then (st.b &&& st.c) ||| (not32 st.b &&& st.d)
    else if i < 32 then (st.d &&& st.b) ||| (not32 st.d &&& st.c)
    else if i < 48 then st.b ^^^ st.c ^^^ st.d
    else st.c ^^^ (st.b ||| not32 st.d)
  let g :=
    if i < 16 then i
    else if i < 32 then (5 * i + 1) % 16
    else if i < 48 then (3 * i + 5) % 16
    else (7 * i) % 16
  let fv := m32 (f + st.a + md5K.getD i 0 + ws.getD g 0)
  { a := st.d, d := st.c, c := st.b,
    b := m32 (st.b + rotl32 fv (md5Shift.getD i 0)) }

/-- Process one 64-byte chunk. -/
def md5Block (st : Md5State) (chunk : List Nat) : Md5State :=
  let ws := chunkWords chunk
  let r := (List.range 64).foldl (md5Round ws) st
  ⟨m32 (st.a + r.a), m32 (st.b + r.b), m32 (st.c + r.c), m32 (st.d + r.d)⟩

/-- MD5 digest of a byte list (16 bytes). -/
def md5Digest (msg : List Nat) : List Nat :=
  let st := (chunksOf64 (md5Pad msg)).foldl md5Block
    ⟨1732584193, 4023233417, 2562383102, 271733878⟩
  leBytes st.a 4 ++ leBytes st.b 4 ++ leBytes st.c 4 ++ leBytes st.d 4

/-- Lowercase hexadecimal digit. -/
def hexDigit (n : Nat) : Char := "0123456789abcdef".data.getD n 'x'

/-- Two lowercase hex characters of one byte. -/
def byteHex (b : Nat) : List Char := [hexDigit (b / 16), hexDigit (b % 16)]

/-- Model of Python `hashlib.md5(s.encode()).hexdigest()`. -/
def md5Hex (s : String) : String := ⟨(md5Digest (strBytes s)).flatMap byteHex⟩

/-! ## Freshness record file and library lifecycle

The record file is modelled by its observable state: absent, readable with
raw lines (as Python `readlines` returns them, newline-terminated), or
present but raising `OSError` when opened/read.  Python exceptions are an
explicit error type; `try`/`except SomeClass` becomes a match on it. -/

/-- Python exception classes that can escape the functions we model. -/
inductive PyError
  | calledProcess
  | osError
  | buildFailure
deriving Repr, DecidableEq

/-- Decidable equality for `Except` results, so that concrete runs can be
evaluated by `decide`. -/
instance exceptDecEq {e a : Type} [DecidableEq e] [DecidableEq a] :
    DecidableEq (Except e a) := fun x y =>
  match x, y with
  | .error e1, .error e2 => decidable_of_iff (e1 = e2) (by simp)
  | .ok a1, .ok a2 => decidable_of_iff (a1 = a2) (by simp)
  | .error _, .ok _ => isFalse (fun h => Except.noConfusion h)
  | .ok _, .error _ => isFalse (fun h => Except.noConfusion h)

/-- Observable state of the freshness record file. -/
inductive FileState
  | absent
  | lines (ls : List String)
  | unreadable
deriving Repr, DecidableEq

/-- Model of `Path.exists()` for the record file. -/
def FileState.fsExists : FileState → Bool
  | .absent => false
  | .lines _ => true
  | .unreadable => true

/-- Log severities of `deps.log` (source class `LogType`). -/
inductive LogType
  | Info
  | Success
  | Warning
  | Error
deriving Repr, DecidableEq

/-- Observable side effects of a library lifecycle run. -/
inductive Effect
  | log (t : LogType) (msg : String)
  | mkdirInstallDir
  | build
  | writeRecord
deriving Repr, DecidableEq

/-- Model of `InstallingLibrary.ReadLineAt`: returns the 1-indexed line with
trailing newlines stripped, `none` when the file or line is missing, and an
`OSError` when the file exists but cannot be read. -/
def ReadLineAt (f : FileState) (n : Nat) : Except PyError (Option String) :=
  match f with
  | .absent => .ok none
  | .unreadable => .error .osError
  | .lines ls => .ok (if n = 0 then none else (ls[n - 1]?).map rstripNl)

/-- Model of `InstallingLibrary.WriteLineAt`: reads existing lines (empty
when the file is absent), pads with blank lines up to `n`, and replaces line
`n` with the text, newline-terminated. -/
def WriteLineAt (f : FileState) (n : Nat) (text : String) : Except PyError FileState :=
  match f with
  | .unreadable => .error .osError
  | .absent =>
    let padded := List.replicate n "\n"
    .ok (.lines (padded.set (n - 1) (rstripNl text ++ "\n")))
  | .lines ls =>
    let padded := ls ++ List.replicate (n - ls.length) "\n"
    .ok (.lines (padded.set (n - 1) (rstripNl text ++ "\n")))

/-- Environment for the `git -C <source_dir> rev-parse HEAD` subprocess:
either its captured stdout, or a `CalledProcessError`.  (The source caches
the result in `self.git_hash`; the subprocess outcome is fixed within one
run, so the memoisation is observationally irrelevant and elided.) -/
structure GitEnv where
  revParse : Except Unit String

/-- Model of `InstallingLibrary.GetGitHash` (`stdout.strip()` on success). -/
def GetGitHash (env : GitEnv) : Except PyError String :=
  match env.revParse with
  | .error _ => .error .calledProcess
  | .ok out => .ok (pyStrip out)

/-- Model of `CMakeLibrary.GetBuildHash`:
`hashlib.md5("|".join(extra_args).encode()).hexdigest()`. -/
def GetBuildHash (extra_args : List String) : String :=
  md5Hex (String.intercalate "|" extra_args)

/-- Model of `InstallingLibrary.CheckGitHash`: compares the git hash with
line 1 of the record; only `subprocess.CalledProcessError` is caught (logged
and turned into `False`), any other exception propagates. -/
def CheckGitHash (env : GitEnv) (f : FileState) : Except PyError Bool × List Effect :=
  match GetGitHash env with
  | .error .calledProcess => (.ok false, [.log .Error "Failed to get git hash"])
  | .error e => (.error e, [])
  | .ok h =>
    match ReadLineAt f 1 with
    | .error .calledProcess => (.ok false, [.log .Error "Failed to get git hash"])
    | .error e => (.error e, [])
    | .ok l => (.ok (l == some h), [])

/-- Model of `InstallingLibrary.IsHashRelevant`:
`hash_file.exists() and self.CheckGitHash(hash_file)`. -/
def InstallingLibrary.IsHashRelevant (env : GitEnv) (f : FileState) :
    Except PyError Bool × List Effect :=
  if f.fsExists then CheckGitHash env f else (.ok false, [])

/-- Model of `CMakeLibrary.CheckBuildHash`: compares the build hash with
line 2 of the record; the `except` clause again only catches
`CalledProcessError`. -/
def CheckBuildHash (extra_args : List String) (f : FileState) :
    Except PyError Bool × List Effect :=
  match ReadLineAt f 2 with
  | .error .calledProcess => (.ok false, [.log .Error "Failed to get git hash"])
  | .error e => (.error e, [])
  | .ok l => (.ok (l == some (GetBuildHash extra_args)), [])

/-- Model of `CMakeLibrary.IsHashRelevant`:
`super().IsHashRelevant(hash_file) and self.CheckBuildHash(hash_file)`
(short-circuiting on the left conjunct). -/
def CMakeLibrary.IsHashRelevant (env : GitEnv) (extra_args : List String)
    (f : FileState) : Except PyError Bool × List Effect :=
  match InstallingLibrary.IsHashRelevant env f with
  | (.ok true, es) =>
    let (r, es2) := CheckBuildHash extra_args f
    (r, es ++ es2)
  | other => other

/-- Model of `InstallingLibrary.WriteHash`: writes the git hash to line 1
(re-running `git rev-parse` first, whose failure propagates). -/
def InstallingLibrary.WriteHash (env : GitEnv) (f : FileState) :
    Except PyError FileState := do
  let h ← GetGitHash env
  WriteLineAt f 1 h

/-- Model of `CMakeLibrary.WriteHash`: line 1 via the base class, then the
build hash to line 2. -/
def CMakeLibrary.WriteHash (env : GitEnv) (extra_args : List String)
    (f : FileState) : Except PyError FileState := do
  let f1 ← InstallingLibrary.WriteHash env f
  WriteLineAt f1 2 (GetBuildHash extra_args)

/-- The two record-relevant library variants: manual/header libraries use
the base-class hash logic (content identity only); CMake libraries add the
build-argument hash. -/
inductive Variant
  | manual
  | cmake (extra_args : List String)

/-- Per-variant freshness check dispatch. -/
def IsHashRelevantV : Variant → GitEnv → FileState → Except PyError Bool × List Effect
  | .manual, env, f => InstallingLibrary.IsHashRelevant env f
  | .cmake args, env, f => CMakeLibrary.IsHashRelevant env args f

/-- Per-variant record write dispatch. -/
def WriteHashV : Variant → GitEnv → FileState → Except PyError FileState
  | .manual, env, f => InstallingLibrary.WriteHash env f
  | .cmake args, env, f => CMakeLibrary.WriteHash env args f

/-- Externalised state touched by one `InstallLibrary` call: the record file
and whether the install directory exists. -/
structure World where
  record : FileState
  installDirPresent : Bool
deriving Repr, DecidableEq

/-- Outcome of the variant-specific `BuildAndInstall` call, abstracted to
what the library lifecycle can observe: whether it returned normally
(`ok`), and whether it performed the install-directory wipe of
`CMakeLibrary.BuildAndInstall` (lines 340-344) during the run.
`ManualLibrary.BuildAndInstall` never wipes (`wipedInstallDir = false`);
the CMake variant wipes exactly when the first build succeeds — also in
runs where a later install or Debug stage then raises (see the C9
theorems on `CMakeBuildAndInstall`). -/
structure BuildOutcome where
  ok : Bool
  wipedInstallDir : Bool
deriving Repr, DecidableEq

/-- Record-file state after `BuildAndInstall` ran: with the default cache
location (`--cache-dir` unset, lines 172-174) the record file
`hash_<lib>.txt` lives inside the install directory, so the CMake
install-directory wipe (`shutil.rmtree` + `mkdir`) deletes it; with a
separate `CACHE_ROOT` the record is untouched. -/
def recordAfterBuild (cacheSeparate : Bool) (bo : BuildOutcome) (f : FileState) : FileState :=
  if !cacheSeparate && bo.wipedInstallDir then .absent else f

/-- Model of `InstallingLibrary.InstallLibrary`: consult the freshness
cache (an up-to-date library is logged and skipped with no side effects),
otherwise create the install directory if needed, run the variant-specific
`BuildAndInstall` (abstracted to a `BuildOutcome` and a `.build` effect;
its wipe may delete a co-located record file), and only then commit the
record.  Exceptions propagate to the caller (`main`). -/
def InstallLibrary (v : Variant) (env : GitEnv) (cacheSeparate : Bool)
    (bo : BuildOutcome) (w : World) : Except PyError Unit × World × List Effect :=
  match IsHashRelevantV v env w.record with
  | (.error e, es) => (.error e, w, es)
  | (.ok true, es) => (.ok (), w, es ++ [.log .Info "is up to date"])
  | (.ok false, es) =>
    let (w1, es1) :=
      if w.installDirPresent then (w, es)
      else ({ w with installDirPresent := true }, es ++ [.mkdirInstallDir])
    let es2 := es1 ++ [.log .Info "Installing"]
    let w2 := { w1 with record := recordAfterBuild cacheSeparate bo w1.record }
    if bo.ok then
      match WriteHashV v env w2.record with
      | .error e => (.error e, w2, es2 ++ [.build])
      | .ok f2 =>
        (.ok (), { w2 with record := f2 },
          es2 ++ [.build, .writeRecord, .log .Success "installed"])
    else (.error .buildFailure, w2, es2 ++ [.build])

/-! ## The per-library loop of `main` -/

/-- One parsed library as `main` sees it: its name, whether its source
directory exists, and the outcome `InstallLibrary` would produce. -/
structure LibRun where
  name : String
  sourceDirPresent : Bool
  outcome : Except PyError Unit
deriving Repr

/-- Observable events of the `main` library loop and its epilogue. -/
inductive MainEv
  | warnMissing (name : String)
  | attempt (name : String)
  | errorLog (name : String)
  | exitFail
  | successLog
  | nothingToDo
deriving Repr, DecidableEq

/-- The per-library loop of `main` (lines 786-795): a missing source
directory is skipped with a warning; an exception from `InstallLibrary` is
logged and the process terminates immediately via `sys.exit(1)`.  Returns
the events and whether the process exited. -/
def mainLoop : List LibRun → List MainEv × Bool
  | [] => ([], false)
  | l :: rest =>
    if l.sourceDirPresent then
      match l.outcome with
      | .ok _ =>
        let (es, ex) := mainLoop rest
        (.attempt l.name :: es, ex)
      | .error _ => ([.attempt l.name, .errorLog l.name, .exitFail], true)
    else
      let (es, ex) := mainLoop rest
      (.warnMissing l.name :: es, ex)

/-- Model of the library-processing tail of `main` (lines 786-800): the
loop, then — only if the process did not exit — the final status log. -/
def mainRun (libs : List LibRun) : List MainEv :=
  let (es, exited) := mainLoop libs
  if exited then es
  else es ++ (if libs.isEmpty then [.nothingToDo] else [.successLog])

/-- Events contributed by a run of libraries none of which fails: an
attempt per present library, a warning per missing one. -/
def prefixEvents (libs : List LibRun) : List MainEv :=
  libs.flatMap fun x =>
    if x.sourceDirPresent then [MainEv.attempt x.name] else [MainEv.warnMissing x.name]

/-! ## Manual rule engine: pattern splitting and recursive glob

Paths are lists of segments relative to the library's source directory
(copy sources) or install directory (copy targets). -/

/-- Split a character list into path segments at `/` (the accumulator holds
the current segment reversed). -/
def splitSegsAux : List Char → List Char → List String
  | [], acc => [⟨acc.reverse⟩]
  | c :: rest, acc =>
    if c = '/' then ⟨acc.reverse⟩ :: splitSegsAux rest []
    else splitSegsAux rest (c :: acc)

/-- Path segments of a relative pattern string, as `pathlib.Path(...).parts`
yields them (repeated separators and `.` components are normalised away). -/
def pathParts (s : String) : List String :=
  (splitSegsAux s.data []).filter (fun p => p ≠ "" && p ≠ ".")

/-- Whether a path component is hidden, i.e. starts with a dot. -/
def isHiddenSeg (s : String) : Bool :=
  match s.data with
  | '.' :: _ => true
  | _ => false

/-- Whether a path component contains one of the wildcard characters
`*`, `?`, `[` (the check of `_SplitPattern`). -/
def hasWildcard (part : String) : Bool :=
  part.data.any (fun c => c = '*' || c = '?' || c = '[')

/-- Model of `ManualLibrary._SplitPattern` on path components: the fixed
prefix is everything before the first wildcard-bearing component, the glob
sub-pattern is that component and everything after it. -/
def SplitPattern : List String → List String × List String
  | [] => ([], [])
  | p :: rest =>
    if hasWildcard p then ([], p :: rest)
    else
      let (f, s) := SplitPattern rest
      (p :: f, s)

/-- Tokens of an `fnmatch`-style single-component pattern. -/
inductive GlobTok
  | lit (c : Char)
  | star
  | qmark
  | cls (neg : Bool) (ranges : List (Char × Char))
deriving Repr, DecidableEq

/-- Split a character list at the first `]`, returning the content before
it and the remainder after it (`none` when there is no `]`). -/
def splitAtRBracket : List Char → Option (List Char × List Char)
  | [] => none
  | c :: r =>
    if c = ']' then some ([], r)
    else (splitAtRBracket r).map (fun p => (c :: p.1, p.2))

/-- Members of a character class: `a-b` forms a range, a lone or trailing
`-` is a literal member. -/
def parseRanges : List Char → List (Char × Char)
  | a :: '-' :: b :: rest => (a, b) :: parseRanges rest
  | a :: rest => (a, a) :: parseRanges rest
  | [] => []

/-- Parse a character class after its opening `[`: optional `!` negation, a
first `]` is a literal member, then members up to the closing `]`.  `none`
when unterminated (the `[` is then a literal, as in `fnmatch`). -/
def parseCls (s : List Char) : Option (GlobTok × List Char) :=
  let (neg, s1) := match s with
    | '!' :: r => (true, r)
    | _ => (false, s)
  match s1 with
  | ']' :: r => (splitAtRBracket r).map (fun p => (.cls neg (parseRanges (']' :: p.1)), p.2))
  | _ => (splitAtRBracket s1).map (fun p => (.cls neg (parseRanges p.1), p.2))

/-- Tokenize a component pattern (fuelled by the input length; every step
consumes at least one character). -/
def tokenizeAux : Nat → List Char → List GlobTok
  | 0, _ => []
  | _ + 1, [] => []
  | fuel + 1, '*' :: rest => .star :: tokenizeAux fuel rest
  | fuel + 1, '?' :: rest => .qmark :: tokenizeAux fuel rest
  | fuel + 1, '[' :: rest =>
    match parseCls rest with
    | some (t, rest2) => t :: tokenizeAux fuel rest2
    | none => .lit '[' :: tokenizeAux fuel rest
  | fuel + 1, c :: rest => .lit c :: tokenizeAux fuel rest

/-- Tokenized form of a component pattern. -/
def tokenize (pat : String) : List GlobTok := tokenizeAux pat.data.length pat.data

/-- Match a tokenized component pattern against the characters of one name:
`*` spans any (possibly empty) run, `?` exactly one character, a class by
its ranges (negated by `!`).  Fuelled: every recursive call shrinks the
combined length by at least one, so the initial fuel is never exhausted. -/
def matchToksAux : Nat → List GlobTok → List Char → Bool
  | 0, _, _ => false
  | _ + 1, [], [] => true
  | fuel + 1, .star :: ps, ns =>
    matchToksAux fuel ps ns ||
      (match ns with
       | [] => false
       | _ :: nt => matchToksAux fuel (.star :: ps) nt)
  | fuel + 1, .qmark :: ps, _ :: ns => matchToksAux fuel ps ns
  | fuel + 1, .lit c :: ps, n :: ns => c == n && matchToksAux fuel ps ns
  | fuel + 1, .cls neg rs :: ps, n :: ns =>
    ((rs.any (fun r => r.1 ≤ n && n ≤ r.2)) != neg) && matchToksAux fuel ps ns
  | _ + 1, _, _ => false

/-- Match a tokenized component pattern against one name. -/
def matchToks (ps : List GlobTok) (ns : List Char) : Bool :=
  matchToksAux (ps.length + ns.length + 1) ps ns

/-- One-component matching as `glob.glob` uses it: `fnmatch` semantics plus
the rule that a name starting with `.` is only matched by a pattern
starting with `.`. -/
def matchSeg (pat name : String) : Bool :=
  if isHiddenSeg name && !isHiddenSeg pat then false
  else matchToks (tokenize pat) name.data

/-- Match a component-wise glob pattern against a relative path, with `**`
components spanning any number of non-hidden components
(`glob.glob(..., recursive=True)` semantics).  Fuelled like `matchToksAux`. -/
def matchPartsAux : Nat → List String → List String → Bool
  | 0, _, _ => false
  | _ + 1, [], [] => true
  | _ + 1, [], _ :: _ => false
  | fuel + 1, p :: ps, ns =>
    if p = "**" then
      matchPartsAux fuel ps ns ||
        (match ns with
         | [] => false
         | n :: nt => !isHiddenSeg n && matchPartsAux fuel (p :: ps) nt)
    else
      match ns with
      | [] => false
      | n :: nt => matchSeg p n && matchPartsAux fuel ps nt

/-- Match a component-wise recursive glob pattern against a relative path. -/
def matchParts (ps ns : List String) : Bool :=
  matchPartsAux (ps.length + ns.length + 1) ps ns

/-- One existing filesystem object below the library's source directory,
identified by its relative segment path. -/
structure FsEntry where
  path : List String
  isDir : Bool
deriving Repr, DecidableEq

/-- The collection of existing objects below the source directory.  The
source directory itself (the empty path) always exists: `main` skips the
library otherwise. -/
abbrev Fs := List FsEntry

/-- Model of `Path.exists()` for a path below the source directory. -/
def fsExistsPath (fs : Fs) (p : List String) : Bool :=
  p.isEmpty || fs.any (fun e => e.path == p)

/-- Model of `Path.is_file()`. -/
def fsIsFile (fs : Fs) (p : List String) : Bool :=
  fs.any (fun e => e.path == p && !e.isDir)

/-- Model of `Path.is_dir()`. -/
def fsIsDir (fs : Fs) (p : List String) : Bool :=
  p.isEmpty || fs.any (fun e => e.path == p && e.isDir)

/-- Model of `glob.glob(str((source_dir / fixed) / subpattern),
recursive=True)` for a wildcard-free `fixed`: existing paths whose position
below `fixed` matches the sub-pattern.  A sub-pattern with no components is
the no-magic case (the literal path, if it exists); a sub-pattern that can
match zero components (`**` chains) also yields the root itself. -/
def globList (fs : Fs) (fixed : List String) (subParts : List String) : List (List String) :=
  if subParts.isEmpty then
    if fsExistsPath fs fixed then [fixed] else []
  else
    (if matchParts subParts [] && fsExistsPath fs fixed then [fixed] else []) ++
    (fs.filter (fun e =>
      fixed.isPrefixOf e.path && matchParts subParts (e.path.drop fixed.length))).map (·.path)

/-- A copy operation of the rule engine: the source path is relative to the
library's source directory, the target relative to its install directory
(`shutil.copy2` for files, `shutil.copytree(..., dirs_exist_ok=True)` for
directories; `copytree src dst` makes `dst` itself a copy of `src`). -/
inductive CopyOp
  | copyFile (src target : List String)
  | copyTree (src target : List String)
deriving Repr, DecidableEq

/-- Events of one manual rule application. -/
inductive RuleEv
  | warn (msg : String)
  | op (o : CopyOp)
deriving Repr, DecidableEq

/-- Model of one iteration of `ManualLibrary.BuildAndInstall` (lines
391-433) for the rule `(pattern, dst_subdir, exclude_pattern)`: split the
pattern; warn and skip when the base path is missing; copy a single file
directly under its name (warning when an exclude is supplied); otherwise
glob, subtract the exclude glob — which is consulted only when the literal
path `fixed / exclude_pattern` exists — and copy every remaining match to
`dst_subdir / <match relative to the fixed prefix>`. -/
def ApplyRule (fs : Fs) (pattern dst_subdir exclude_pattern : String) : List RuleEv :=
  let (fixed, subParts) := SplitPattern (pathParts pattern)
  if !fsExistsPath fs fixed then [.warn "Pattern base path not found"]
  else if fsIsFile fs fixed then
    (if exclude_pattern ≠ "" then [.warn "There is no need in exclude glob"] else []) ++
    [.op (.copyFile fixed (pathParts dst_subdir ++ [fixed.getLastD ""]))]
  else
    let matchList := globList fs fixed subParts
    let excludeMatches :=
      if exclude_pattern ≠ "" then
        if fsExistsPath fs (fixed ++ pathParts exclude_pattern) then
          globList fs fixed (pathParts exclude_pattern)
        else []
      else []
    let toCopy := matchList.filter (fun p => !excludeMatches.contains p)
    toCopy.map (fun p =>
      if fixed.isPrefixOf p then
        let target := pathParts dst_subdir ++ p.drop fixed.length
        if fsIsDir fs p then .op (.copyTree p target) else .op (.copyFile p target)
      else .warn "Failed to compute relative path")

/-- Model of `ManualLibrary.BuildAndInstall`: the rules applied in order. -/
def ManualBuildAndInstall (fs : Fs) (rules : List (String × String × String)) : List RuleEv :=
  rules.flatMap (fun r => ApplyRule fs r.1 r.2.1 r.2.2)

/-! ## CMake orchestration (`CMakeLibrary.BuildAndInstall`) -/

/-- Failure injection for the subprocesses of one configuration: the
`cmake --build` and `cmake --install` invocations and, for single-config
generators, the per-configuration reconfigure. -/
structure CfgPlan where
  name : String
  reconfigureOk : Bool
  buildOk : Bool
  installOk : Bool
deriving Repr, DecidableEq

/-- Steps of `CMakeLibrary.BuildAndInstall` that touch the install
directory or run a subprocess. -/
inductive CEvent
  | configure
  | reconfigure (cfg : String)
  | buildStep (cfg : String)
  | wipeInstallDir
  | installStep (cfg : String)
deriving Repr, DecidableEq

/-- Running state of a CMake build-and-install: the step trace and the
install directory's contents (tags of the configurations installed, plus
whatever was there before). -/
structure CMakeSt where
  trace : List CEvent
  installDir : List String
deriving Repr, DecidableEq

/-- The per-configuration loop of `CMakeLibrary.BuildAndInstall` (lines
321-353): reconfigure first for single-config generators; build; wipe and
recreate the install directory exactly when `needToCleanupInstall` is still
set; install.  A subprocess failure raises, tagged with its stage name. -/
def CMakeCfgLoop (isMulti : Bool) :
    List CfgPlan → Bool → CMakeSt → CMakeSt × Option String
  | [], _, st => (st, none)
  | cfg :: rest, needClean, st =>
    let recfg := if isMulti then ([], true) else ([CEvent.reconfigure cfg.name], cfg.reconfigureOk)
    let st1 := { st with trace := st.trace ++ recfg.1 }
    if !recfg.2 then (st1, some "reconfigure")
    else
      let st2 := { st1 with trace := st1.trace ++ [.buildStep cfg.name] }
      if !cfg.buildOk then (st2, some "build")
      else
        let (st3, needClean2) :=
          if needClean then
            ({ st2 with trace := st2.trace ++ [.wipeInstallDir], installDir := [] }, false)
          else (st2, needClean)
        let st4 := { st3 with trace := st3.trace ++ [.installStep cfg.name] }
        if !cfg.installOk then (st4, some "install")
        else CMakeCfgLoop isMulti rest needClean2 { st4 with installDir := st4.installDir ++ [cfg.name] }

/-- Model of `CMakeLibrary.BuildAndInstall` (lines 273-360) after the build
directory is locked and purged: configure once, then the configuration loop
(`Release`, and also `Debug` when `build_debug`) with `needToCleanupInstall`
initially set.  Returns the final state and the failing stage, if any.
(The `finally` block removes only the transient build directory, never the
install directory.) -/
def CMakeBuildAndInstall (isMulti configureOk : Bool) (release debug : CfgPlan)
    (buildDebug : Bool) (installDir0 : List String) : CMakeSt × Option String :=
  let st0 : CMakeSt := { trace := [.configure], installDir := installDir0 }
  if !configureOk then (st0, some "configure")
  else
    let configs := if buildDebug then [release, debug] else [release]
    CMakeCfgLoop isMulti configs true st0

/-- Number of install-directory wipes in a trace. -/
def wipeCount (tr : List CEvent) : Nat := tr.count .wipeInstallDir

/-- Discriminator for build-step events. -/
def isBuildStep : CEvent → Bool
  | .buildStep _ => true
  | _ => false

/-! ## Concrete instances used by witnesses and counterexamples -/

/-- Source tree for the exclude-subtraction scenario of C3: files `a.h`,
`b.h`, `sub/c.h`. -/
def fsEx3 : Fs := [⟨["a.h"], false⟩, ⟨["b.h"], false⟩, ⟨["sub"], true⟩, ⟨["sub", "c.h"], false⟩]

/-- Source tree for the directory-copy scenario of C4: directory
`public/steam` containing `s.h`. -/
def fsEx4 : Fs := [⟨["public"], true⟩, ⟨["public", "steam"], true⟩, ⟨["public", "steam", "s.h"], false⟩]

/-- Source tree for the pattern-splitting example of C8. -/
def fsEx8 : Fs :=
  [⟨["redistributable_bin"], true⟩, ⟨["redistributable_bin", "win64"], true⟩,
   ⟨["redistributable_bin", "win64", "steam_api64.dll"], false⟩]

/-! ## Helper lemmas -/

theorem dropWhile_head_false {α : Type} {p : α → Bool} {l : List α} {a : α} {as : List α}
    (h : l.dropWhile p = a :: as) : p a = false := by
  induction l with
  | nil => simp at h
  | cons x xs ih =>
    rw [List.dropWhile_cons] at h
    by_cases hx : p x = true
    · rw [if_pos hx] at h
      exact ih h
    · rw [if_neg hx] at h
      cases h
      simpa using hx

theorem dropWhile_dropWhile_imp {α : Type} {p q : α → Bool} (l : List α)
    (himp : ∀ a, q a = true → p a = true) :
    (l.dropWhile p).dropWhile q = l.dropWhile p := by
  cases hd : l.dropWhile p with
  | nil => simp
  | cons a as =>
    have hpa := dropWhile_head_false hd
    have hqa : q a = false := by
      cases hqa : q a with
      | false => rfl
      | true => rw [himp a hqa] at hpa; cases hpa
    simp [List.dropWhile_cons, hqa]

theorem rstripNl_append_newline (s : String) : rstripNl (s ++ "\n") = rstripNl s := by
  unfold rstripNl
  have h1 : (s ++ "\n").data = s.data ++ ['\n'] := by
    rw [String.data_append]
  rw [h1, List.reverse_append]
  simp [List.dropWhile_cons]

theorem rstripNl_rstripNl (s : String) : rstripNl (rstripNl s) = rstripNl s := by
  unfold rstripNl
  congr 1
  rw [List.reverse_reverse, List.dropWhile_idempotent]

theorem rstripNl_pyStrip (s : String) : rstripNl (pyStrip s) = pyStrip s := by
  unfold rstripNl pyStrip
  congr 1
  rw [List.reverse_reverse]
  rw [dropWhile_dropWhile_imp]
  intro a ha
  have : a = '\n' := by simpa using ha
  subst this
  rfl

theorem rstripNl_eq_self_of_no_nl {s : String} (h : ∀ c ∈ s.data, c ≠ '\n') :
    rstripNl s = s := by
  obtain ⟨d⟩ := s
  unfold rstripNl
  have hd : d.reverse.dropWhile (fun c => decide (c = '\n')) = d.reverse := by
    cases hr : d.reverse with
    | nil => simp
    | cons a as =>
      have ha : a ∈ d := by
        have : a ∈ d.reverse := by rw [hr]; exact List.mem_cons_self a as
        simpa using this
      simp [List.dropWhile_cons, h a ha]
  simp only [String.data] at hd ⊢
  rw [hd, List.reverse_reverse]

theorem hexDigit_ne_newline (n : Nat) : hexDigit n ≠ '\n' := by
  unfold hexDigit
  by_cases h : n < "0123456789abcdef".data.length
  · have hm : "0123456789abcdef".data.getD n 'x' ∈ "0123456789abcdef".data := by
      rw [List.getD_eq_getElem?_getD, List.getElem?_eq_getElem h]
      exact List.getElem_mem h
    have hall : ∀ c ∈ "0123456789abcdef".data, c ≠ '\n' := by decide
    exact hall _ hm
  · rw [List.getD_eq_default _ _ (Nat.le_of_not_lt h)]
    decide

theorem rstripNl_md5Hex (s : String) : rstripNl (md5Hex s) = md5Hex s := by
  apply rstripNl_eq_self_of_no_nl
  intro c hc
  unfold md5Hex at hc
  simp only [String.data, List.mem_flatMap, byteHex, List.mem_cons,
    List.not_mem_nil, or_false] at hc
  obtain ⟨b, _, hc⟩ := hc
  rcases hc with h | h
  · subst h; exact hexDigit_ne_newline _
  · subst h; exact hexDigit_ne_newline _

theorem rstripNl_GetBuildHash (args : List String) :
    rstripNl (GetBuildHash args) = GetBuildHash args :=
  rstripNl_md5Hex _

theorem WriteLineAt_one (f : FileState) (t : String) {g : FileState}
    (h : WriteLineAt f 1 t = .ok g) :
    ∃ l1, g = .lines l1 ∧ l1 ≠ [] ∧ l1[0]? = some (rstripNl t ++ "\n") := by
  cases f with
  | unreadable => simp [WriteLineAt] at h
  | absent =>
    refine ⟨[rstripNl t ++ "\n"], ?_, by simp, rfl⟩
    have h2 : WriteLineAt .absent 1 t = .ok (.lines [rstripNl t ++ "\n"]) := rfl
    rw [h2] at h
    cases h
    rfl
  | lines ls =>
    refine ⟨(ls ++ List.replicate (1 - ls.length) "\n").set 0 (rstripNl t ++ "\n"), ?_, ?_, ?_⟩
    · have h2 : WriteLineAt (.lines ls) 1 t =
          .ok (.lines ((ls ++ List.replicate (1 - ls.length) "\n").set 0 (rstripNl t ++ "\n"))) := rfl
      rw [h2] at h
      cases h
      rfl
    · cases ls <;> simp
    · cases ls <;> simp

theorem WriteLineAt_two (l1 : List String) (t : String) {g : FileState}
    (hne : l1 ≠ []) (h : WriteLineAt (.lines l1) 2 t = .ok g) :
    ∃ l2, g = .lines l2 ∧ l2[0]? = l1[0]? ∧ l2[1]? = some (rstripNl t ++ "\n") := by
  obtain ⟨a, rest, rfl⟩ := List.exists_cons_of_ne_nil hne
  refine ⟨((a :: rest) ++ List.replicate (2 - (a :: rest).length) "\n").set 1 (rstripNl t ++ "\n"),
    ?_, ?_, ?_⟩
  · have h2 : WriteLineAt (.lines (a :: rest)) 2 t =
        .ok (.lines (((a :: rest) ++ List.replicate (2 - (a :: rest).length) "\n").set 1
          (rstripNl t ++ "\n"))) := rfl
    rw [h2] at h
    cases h
    rfl
  · simp
  · cases rest <;> simp [List.replicate]

theorem checkGitHash_ok_effects (out : String) (f : FileState) :
    (CheckGitHash ⟨.ok out⟩ f).2 = [] := by
  cases f <;> rfl

theorem checkBuildHash_effects (args : List String) (f : FileState) :
    (CheckBuildHash args f).2 = [] := by
  cases f <;> rfl

theorem baseCheck_ok_effects (out : String) (f : FileState) :
    (InstallingLibrary.IsHashRelevant ⟨.ok out⟩ f).2 = [] := by
  unfold InstallingLibrary.IsHashRelevant
  cases f <;> simp [FileState.fsExists, checkGitHash_ok_effects]

theorem checkEffects_nil (v : Variant) (out : String) (f : FileState) :
    (IsHashRelevantV v ⟨.ok out⟩ f).2 = [] := by
  cases v with
  | manual => exact baseCheck_ok_effects out f
  | cmake args =>
    simp only [IsHashRelevantV]
    unfold CMakeLibrary.IsHashRelevant
    rcases hb : InstallingLibrary.IsHashRelevant ⟨.ok out⟩ f with ⟨r, es⟩
    have hes : es = [] := by
      have h2 := baseCheck_ok_effects out f
      rw [hb] at h2
      exact h2
    subst hes
    rcases r with e | b
    · simp
    · cases b <;> simp [checkBuildHash_effects]

theorem check_no_writeRecord (v : Variant) (env : GitEnv) (f : FileState) :
    Effect.writeRecord ∉ (IsHashRelevantV v env f).2 ∧
    Effect.build ∉ (IsHashRelevantV v env f).2 := by
  obtain ⟨r⟩ := env
  cases r with
  | ok out => rw [checkEffects_nil]; simp
  | error u =>
    cases u
    cases v <;> cases f <;>
      simp [IsHashRelevantV, InstallingLibrary.IsHashRelevant, CMakeLibrary.IsHashRelevant,
        CheckGitHash, CheckBuildHash, GetGitHash, ReadLineAt, FileState.fsExists]

/-! ## Claim C5 -/

theorem checkAbsent (v : Variant) (env : GitEnv) :
    IsHashRelevantV v env .absent = (.ok false, []) := by
  cases v <;> rfl

/-- C5 counterexample: the claim says any exception while reading the
record file makes the up-to-date check return "not up to date" and is never
propagated; but with the record file present and unreadable the check
raises — the OSError propagates out of the freshness check. -/
theorem C5_counterexample :
    (InstallingLibrary.IsHashRelevant ⟨.ok "g"⟩ .unreadable).1 = .error .osError := rfl

/-- C5 amended: the up-to-date check treats a missing record file as "not
up to date", likewise a missing line — an empty record (no line 1), or for
a CMake library a record whose line 1 matches but has no line 2 — and it
converts a git-subprocess failure into "not up to date" with a logged
error; but an I/O error while reading an existing record file is not
caught: it propagates out of the check as an exception, because the except
clause only catches CalledProcessError. -/
theorem C5_amended :
    (∀ v env, IsHashRelevantV v env .absent = (.ok false, [])) ∧
    (∀ v out, IsHashRelevantV v ⟨.ok out⟩ (.lines []) = (.ok false, [])) ∧
    (∀ (args : List String) (out : String),
      IsHashRelevantV (.cmake args) ⟨.ok out⟩ (.lines [pyStrip out ++ "\n"]) =
        (.ok false, [])) ∧
    (∀ v out, IsHashRelevantV v ⟨.ok out⟩ .unreadable = (.error .osError, [])) ∧
    (∀ v f, f.fsExists = true →
      IsHashRelevantV v ⟨.error ()⟩ f = (.ok false, [.log .Error "Failed to get git hash"])) := by
  refine ⟨checkAbsent, ?_, ?_, ?_, ?_⟩
  · intro v out
    cases v <;> rfl
  · intro args out
    have hx : rstripNl (pyStrip out ++ "\n") = pyStrip out := by
      rw [rstripNl_append_newline, rstripNl_pyStrip]
    simp [IsHashRelevantV, CMakeLibrary.IsHashRelevant, InstallingLibrary.IsHashRelevant,
      FileState.fsExists, CheckGitHash, CheckBuildHash, GetGitHash, ReadLineAt, hx]
  · intro v out
    cases v <;> rfl
  · intro v f h
    cases v <;> cases f <;> first
      | rfl
      | simp [FileState.fsExists] at h

/-- Witness for C5 amended: the git-failure arm at a present record file. -/
theorem C5_witness :
    IsHashRelevantV .manual ⟨.error ()⟩ (.lines ["x\n"]) =
      (.ok false, [.log .Error "Failed to get git hash"]) :=
  C5_amended.2.2.2.2 .manual (.lines ["x\n"]) rfl

/-! ## Claim C7 -/

theorem installLibrary_buildFail_record (v : Variant) (env : GitEnv) (sep wiped : Bool)
    (w : World) (hpre : (IsHashRelevantV v env w.record).1 = .ok false) :
    ((InstallLibrary v env sep ⟨false, wiped⟩ w).2.1).record =
      recordAfterBuild sep ⟨false, wiped⟩ w.record ∧
    (InstallLibrary v env sep ⟨false, wiped⟩ w).1 = .error .buildFailure ∧
    (InstallLibrary v env sep ⟨false, wiped⟩ w).2.2 =
      (IsHashRelevantV v env w.record).2 ++
        (if w.installDirPresent then [] else [Effect.mkdirInstallDir]) ++
        [Effect.log .Info "Installing", Effect.build] := by
  unfold InstallLibrary
  rcases hchk : IsHashRelevantV v env w.record with ⟨r, es0⟩
  rw [hchk] at hpre
  simp at hpre
  subst hpre
  by_cases hb : w.installDirPresent = true <;>
    exact ⟨by simp [hb], by simp [hb], by simp [hb]⟩

/-- C7 counterexample: the claim says a raising BuildAndInstall leaves the
freshness record file unmodified; but for a CMake library with the default
co-located cache, a run whose first build succeeded (so the install
directory was wiped) and whose later stage then raised leaves the record
file deleted, not unmodified. -/
theorem C7_counterexample :
    ((InstallLibrary (.cmake ["a"]) ⟨.ok "g"⟩ false ⟨false, true⟩
        ⟨.lines ["stale\n"], true⟩).2.1).record = .absent ∧
    FileState.absent ≠ FileState.lines ["stale\n"] ∧
    (InstallLibrary (.cmake ["a"]) ⟨.ok "g"⟩ false ⟨false, true⟩
        ⟨.lines ["stale\n"], true⟩).1 = .error .buildFailure := by
  refine ⟨by decide, by decide, by decide⟩

/-- C7 amended: the record is committed only after a successful build/copy
— a record-write effect occurs only immediately after the build effect.
When BuildAndInstall raises, no record write happens and the record file
is either untouched or, for a CMake library with the default co-located
cache whose run already passed the install-directory wipe, deleted; in
both cases the next run's freshness check still reports stale, so there
are no false cache positives. -/
theorem C7_amended :
    (∀ v env sep wiped w, (IsHashRelevantV v env w.record).1 = .ok false →
      Effect.writeRecord ∉ (InstallLibrary v env sep ⟨false, wiped⟩ w).2.2 ∧
      ((InstallLibrary v env sep ⟨false, wiped⟩ w).2.1).record =
        recordAfterBuild sep ⟨false, wiped⟩ w.record) ∧
    (∀ v env sep wiped w, (IsHashRelevantV v env w.record).1 = .ok false →
      (IsHashRelevantV v env
        ((InstallLibrary v env sep ⟨false, wiped⟩ w).2.1).record).1 = .ok false) ∧
    (∀ v env sep bo w, Effect.writeRecord ∈ (InstallLibrary v env sep bo w).2.2 →
      ∃ l1 l2, (InstallLibrary v env sep bo w).2.2 =
        l1 ++ Effect.build :: Effect.writeRecord :: l2) := by
  refine ⟨?_, ?_, ?_⟩
  · intro v env sep wiped w hpre
    obtain ⟨hrec, -, heff⟩ := installLibrary_buildFail_record v env sep wiped w hpre
    refine ⟨?_, hrec⟩
    rw [heff]
    have hnw := (check_no_writeRecord v env w.record).1
    by_cases hb : w.installDirPresent = true <;> simp [hb] <;> simpa using hnw
  · intro v env sep wiped w hpre
    obtain ⟨hrec, -, -⟩ := installLibrary_buildFail_record v env sep wiped w hpre
    rw [hrec]
    by_cases hsw : (!sep && wiped) = true <;>
      simp [recordAfterBuild, hsw, checkAbsent, hpre]
  · intro v env sep bo w hin
    unfold InstallLibrary at hin ⊢
    have hnw := (check_no_writeRecord v env w.record).1
    rcases hchk : IsHashRelevantV v env w.record with ⟨e | bb, es0⟩ <;> rw [hchk] at hnw hin
    · simp at hin
      exact absurd hin hnw
    · cases bb with
      | true =>
        simp at hin
        exact absurd hin hnw
      | false =>
        by_cases hbo : bo.ok = true
        case neg =>
          by_cases hb : w.installDirPresent = true <;> simp [hb, hbo] at hin <;>
            exact absurd hin hnw
        case pos =>
          by_cases hb : w.installDirPresent = true <;>
            rcases hw : WriteHashV v env (recordAfterBuild sep bo w.record) with e2 | f2 <;>
            simp [hb, hbo, hw] at hin ⊢
          case pos.error =>
            exact absurd hin hnw
          case pos.ok =>
            exact ⟨es0 ++ [.log .Info "Installing"], [.log .Success "installed"], by simp⟩
          case neg.error =>
            exact absurd hin hnw
          case neg.ok =>
            exact ⟨es0 ++ [.mkdirInstallDir, .log .Info "Installing"],
              [.log .Success "installed"], by simp⟩

/-- Witness for C7 amended: a CMake run that wiped the co-located record
and then failed still forces a rebuild on the next check. -/
theorem C7_witness :
    (IsHashRelevantV (.cmake ["a"]) ⟨.ok "g"⟩
      ((InstallLibrary (.cmake ["a"]) ⟨.ok "g"⟩ false ⟨false, true⟩
        ⟨.lines ["stale\n"], true⟩).2.1).record).1 = .ok false :=
  C7_amended.2.1 (.cmake ["a"]) ⟨.ok "g"⟩ false true ⟨.lines ["stale\n"], true⟩ (by decide)

/-! ## Claim C2 -/

/-- C2 counterexample: the claim says a failed content-identity computation
aborts the library's install with no build/copy side effects; but with the
git subprocess failing and a stale record present, the build side effect
does occur. -/
theorem C2_counterexample :
    Effect.build ∈
      (InstallLibrary .manual ⟨.error ()⟩ false ⟨true, false⟩ ⟨.lines ["x\n"], true⟩).2.2 := by
  decide

/-- C2 amended: when the content-identity subprocess fails, the freshness
check treats the library as stale (reporting the error whenever the record
file exists), the build/copy side effects are performed, and the record
write afterwards re-raises the subprocess failure: the install fails only
after the build, no record write occurs, and the record file is unchanged
except that a CMake run past its install-directory wipe has deleted a
co-located record (default --cache-dir). -/
theorem C2_amended (v : Variant) (w : World) (sep wiped : Bool) :
    (InstallLibrary v ⟨.error ()⟩ sep ⟨true, wiped⟩ w).1 = .error .calledProcess ∧
    ((InstallLibrary v ⟨.error ()⟩ sep ⟨true, wiped⟩ w).2.1).record =
      recordAfterBuild sep ⟨true, wiped⟩ w.record ∧
    Effect.build ∈ (InstallLibrary v ⟨.error ()⟩ sep ⟨true, wiped⟩ w).2.2 ∧
    Effect.writeRecord ∉ (InstallLibrary v ⟨.error ()⟩ sep ⟨true, wiped⟩ w).2.2 ∧
    (w.record.fsExists = true →
      Effect.log .Error "Failed to get git hash" ∈
        (InstallLibrary v ⟨.error ()⟩ sep ⟨true, wiped⟩ w).2.2) := by
  rcases w with ⟨rec, idp⟩
  cases v <;> cases rec <;> cases idp <;> cases sep <;> cases wiped <;>
    simp [InstallLibrary, IsHashRelevantV, InstallingLibrary.IsHashRelevant,
      CMakeLibrary.IsHashRelevant, CheckGitHash, CheckBuildHash, GetGitHash, ReadLineAt,
      FileState.fsExists, WriteHashV, InstallingLibrary.WriteHash, CMakeLibrary.WriteHash,
      recordAfterBuild, Except.instMonad, Except.bind]

/-- Witness for C2 amended: the reported-error conjunct at a present record
file. -/
theorem C2_witness :
    Effect.log .Error "Failed to get git hash" ∈
      (InstallLibrary .manual ⟨.error ()⟩ false ⟨true, false⟩ ⟨.lines ["x\n"], true⟩).2.2 :=
  (C2_amended .manual ⟨.lines ["x\n"], true⟩ false false).2.2.2.2 rfl

/-! ## Claim C6 -/

theorem writeHash_then_relevant (v : Variant) (out : String) {f f2 : FileState}
    (h : WriteHashV v ⟨.ok out⟩ f = .ok f2) :
    IsHashRelevantV v ⟨.ok out⟩ f2 = (.ok true, []) := by
  have hx : rstripNl (rstripNl (pyStrip out) ++ "\n") = pyStrip out := by
    rw [rstripNl_append_newline, rstripNl_rstripNl, rstripNl_pyStrip]
  cases v with
  | manual =>
    simp only [WriteHashV, InstallingLibrary.WriteHash, GetGitHash, Except.instMonad,
      Except.bind] at h
    obtain ⟨l1, rfl, hne, h0⟩ := WriteLineAt_one f (pyStrip out) h
    simp [IsHashRelevantV, InstallingLibrary.IsHashRelevant, FileState.fsExists,
      CheckGitHash, GetGitHash, ReadLineAt, h0, hx]
  | cmake args =>
    simp only [WriteHashV, CMakeLibrary.WriteHash, InstallingLibrary.WriteHash, GetGitHash,
      Except.instMonad, Except.bind] at h
    rcases hw1 : WriteLineAt f 1 (pyStrip out) with e1 | f1 <;> rw [hw1] at h
    · simp at h
    · simp only [] at h
      obtain ⟨l1, rfl, hne, h0⟩ := WriteLineAt_one f (pyStrip out) hw1
      obtain ⟨l2, rfl, h20, h21⟩ := WriteLineAt_two l1 (GetBuildHash args) hne h
      simp [IsHashRelevantV, CMakeLibrary.IsHashRelevant, InstallingLibrary.IsHashRelevant,
        FileState.fsExists, CheckGitHash, CheckBuildHash, GetGitHash, ReadLineAt,
        h20, h0, h21, hx, rstripNl_append_newline, rstripNl_GetBuildHash]

/-- C6: a second InstallLibrary run after a fully successful one, with
unchanged content identity and (for CMake libraries) unchanged extra
arguments, is a cache hit: the check reads back exactly the committed
identities, and the second run logs and returns with no build, copy, or
record-write side effects — whatever the cache location and whatever a
second build would have done. -/
theorem C6_second_run_cache_hit (v : Variant) (out : String) (sep : Bool)
    (bo : BuildOutcome) (sep2 : Bool) (bo2 : BuildOutcome) (w0 w1 : World) (es : List Effect)
    (h1 : InstallLibrary v ⟨.ok out⟩ sep bo w0 = (.ok (), w1, es)) :
    InstallLibrary v ⟨.ok out⟩ sep2 bo2 w1 = (.ok (), w1, [.log .Info "is up to date"]) := by
  unfold InstallLibrary at h1 ⊢
  rcases hchk : IsHashRelevantV v ⟨.ok out⟩ w0.record with ⟨e | bb, es0⟩ <;> rw [hchk] at h1
  · simp at h1
  · have hes0 : es0 = [] := by
      have h2 := checkEffects_nil v out w0.record
      rw [hchk] at h2
      exact h2
    subst hes0
    cases bb with
    | true =>
      simp at h1
      obtain ⟨hw, -⟩ := h1
      subst hw
      rw [hchk]
      simp
    | false =>
      by_cases hbo : bo.ok = true
      case neg =>
        by_cases hb : w0.installDirPresent = true <;> simp [hb, hbo] at h1
      case pos =>
        by_cases hb : w0.installDirPresent = true <;> simp [hb, hbo] at h1 <;>
          rcases hw : WriteHashV v ⟨.ok out⟩ (recordAfterBuild sep bo w0.record)
            with e2 | f2 <;> rw [hw] at h1 <;> simp at h1
        · obtain ⟨hw1, -⟩ := h1
          subst hw1
          rw [writeHash_then_relevant v out hw]
          simp
        · obtain ⟨hw1, -⟩ := h1
          subst hw1
          rw [writeHash_then_relevant v out hw]
          simp

/-- Witness for C6: concrete manual-library run from an empty world, then
the cache-hit second run. -/
theorem C6_witness :
    InstallLibrary .manual ⟨.ok "g"⟩ false ⟨true, false⟩ ⟨.lines ["g\n"], true⟩ =
      (.ok (), ⟨.lines ["g\n"], true⟩, [.log .Info "is up to date"]) :=
  C6_second_run_cache_hit .manual "g" false ⟨true, false⟩ false ⟨true, false⟩
    ⟨.absent, false⟩ ⟨.lines ["g\n"], true⟩
    [.mkdirInstallDir, .log .Info "Installing", .build, .writeRecord,
      .log .Success "installed"] rfl

/-! ## Claim C1 -/

theorem mainLoop_append_ok (pre rest : List LibRun)
    (hok : ∀ x ∈ pre, x.sourceDirPresent = true → x.outcome = .ok ()) :
    mainLoop (pre ++ rest) =
      (prefixEvents pre ++ (mainLoop rest).1, (mainLoop rest).2) := by
  induction pre with
  | nil => simp [prefixEvents, mainLoop]
  | cons a t ih =>
    have ha := hok a (by simp)
    have ht : ∀ x ∈ t, x.sourceDirPresent = true → x.outcome = .ok () :=
      fun x hx => hok x (by simp [hx])
    by_cases hs : a.sourceDirPresent = true
    · rw [List.cons_append]
      simp [mainLoop, hs, ha hs, ih ht, prefixEvents]
    · rw [List.cons_append]
      simp [mainLoop, hs, ih ht, prefixEvents]

/-- C1 counterexample: the claim says one library's failure never prevents
the remaining libraries from being attempted, with an overall failure
signal at the end; but after the first library fails, main exits with code
1 immediately — the second library is never attempted. -/
theorem C1_counterexample :
    mainRun [⟨"A", true, .error .buildFailure⟩, ⟨"B", true, .ok ()⟩] =
      [.attempt "A", .errorLog "A", .exitFail] ∧
    MainEv.attempt "B" ∉ mainRun [⟨"A", true, .error .buildFailure⟩, ⟨"B", true, .ok ()⟩] := by
  decide

/-- C1 amended: libraries are processed in order; the first per-library
failure is logged and aborts the whole run immediately via sys.exit(1),
leaving the remaining libraries unattempted; when no attempted library
fails, all libraries are processed and a final success (or nothing-to-do)
message is logged with no failure exit. -/
theorem C1_amended :
    (∀ pre l post, (∀ x ∈ pre, x.sourceDirPresent = true → x.outcome = .ok ()) →
      l.sourceDirPresent = true → (∃ e, l.outcome = .error e) →
      mainRun (pre ++ l :: post) =
        prefixEvents pre ++ [.attempt l.name, .errorLog l.name, .exitFail]) ∧
    (∀ libs, (∀ x ∈ libs, x.sourceDirPresent = true → x.outcome = .ok ()) →
      mainRun libs = prefixEvents libs ++
        (if libs.isEmpty then [.nothingToDo] else [.successLog])) := by
  constructor
  · rintro pre l post hok hs ⟨e, he⟩
    unfold mainRun
    rw [mainLoop_append_ok pre (l :: post) hok]
    simp [mainLoop, hs, he]
  · intro libs hok
    unfold mainRun
    have h2 := mainLoop_append_ok libs [] hok
    rw [List.append_nil] at h2
    rw [h2]
    simp [mainLoop]

/-- Witness for C1 amended: a failing second library stops the run before
the third is attempted. -/
theorem C1_witness :
    mainRun [⟨"A", true, .ok ()⟩, ⟨"B", true, .error .buildFailure⟩, ⟨"C", true, .ok ()⟩] =
      prefixEvents [⟨"A", true, .ok ()⟩] ++ [.attempt "B", .errorLog "B", .exitFail] :=
  C1_amended.1 [⟨"A", true, .ok ()⟩] ⟨"B", true, .error .buildFailure⟩ [⟨"C", true, .ok ()⟩]
    (by intro x hx hsd; rw [List.mem_singleton] at hx; subst hx; rfl)
    rfl ⟨.buildFailure, rfl⟩

/-! ## Claim C10 -/

theorem intercalate_go_append (s x y : String) (t : List String) :
    String.intercalate.go (x ++ y) s t = x ++ String.intercalate.go y s t := by
  induction t generalizing y with
  | nil => rfl
  | cons a as ih =>
    show String.intercalate.go (x ++ y ++ s ++ a) s as
      = x ++ String.intercalate.go (y ++ s ++ a) s as
    rw [String.append_assoc, String.append_assoc, ← String.append_assoc y s a]
    exact ih (y ++ s ++ a)

theorem intercalate_cons_cons (s a b : String) (t : List String) :
    String.intercalate s (a :: b :: t) = (a ++ s) ++ String.intercalate s (b :: t) := by
  show String.intercalate.go (a ++ s ++ b) s t = (a ++ s) ++ String.intercalate.go b s t
  exact intercalate_go_append s (a ++ s) b t

theorem pipe_mem_intercalate_two (b c : String) (u : List String) :
    '|' ∈ (String.intercalate "|" (b :: c :: u)).data := by
  rw [intercalate_cons_cons]
  simp only [String.data_append, show ("|" : String).data = ['|'] from rfl]
  simp

theorem sepFree_append_inj {x y r1 r2 : List Char}
    (hx : '|' ∉ x) (hy : '|' ∉ y)
    (h : x ++ '|' :: r1 = y ++ '|' :: r2) : x = y ∧ r1 = r2 := by
  induction x generalizing y with
  | nil =>
    cases y with
    | nil => simpa using h
    | cons b ys =>
      simp at h
      exact absurd (h.1 ▸ List.mem_cons_self b ys) hy
  | cons a xs ih =>
    cases y with
    | nil =>
      simp at h
      exact absurd (h.1 ▸ List.mem_cons_self a xs) hx
    | cons b ys =>
      simp at h
      obtain ⟨rfl, h2⟩ := h
      have hr := ih (fun hm => hx (List.mem_cons_of_mem _ hm))
        (fun hm => hy (List.mem_cons_of_mem _ hm)) h2
      exact ⟨by rw [hr.1], hr.2⟩

theorem intercalate_pipe_inj (l1 l2 : List String)
    (h1 : ∀ s ∈ l1, s ≠ "" ∧ '|' ∉ s.data) (h2 : ∀ s ∈ l2, s ≠ "" ∧ '|' ∉ s.data)
    (heq : String.intercalate "|" l1 = String.intercalate "|" l2) : l1 = l2 := by
  induction l1 generalizing l2 with
  | nil =>
    cases l2 with
    | nil => rfl
    | cons b t2 =>
      rw [show String.intercalate "|" ([] : List String) = "" from rfl] at heq
      cases t2 with
      | nil =>
        rw [show String.intercalate "|" [b] = b from rfl] at heq
        exact absurd heq.symm (h2 b (by simp)).1
      | cons c u =>
        have h3 := pipe_mem_intercalate_two b c u
        rw [← heq] at h3
        exact absurd h3 (by decide)
  | cons a t1 ih =>
    cases l2 with
    | nil =>
      rw [show String.intercalate "|" ([] : List String) = "" from rfl] at heq
      cases t1 with
      | nil =>
        rw [show String.intercalate "|" [a] = a from rfl] at heq
        exact absurd heq (h1 a (by simp)).1
      | cons c u =>
        have h3 := pipe_mem_intercalate_two a c u
        rw [heq] at h3
        exact absurd h3 (by decide)
    | cons b t2 =>
      cases t1 with
      | nil =>
        cases t2 with
        | nil =>
          rw [show String.intercalate "|" [a] = a from rfl,
            show String.intercalate "|" [b] = b from rfl] at heq
          rw [heq]
        | cons c u =>
          rw [show String.intercalate "|" [a] = a from rfl] at heq
          have h3 := pipe_mem_intercalate_two b c u
          rw [← heq] at h3
          exact absurd h3 (h1 a (by simp)).2
      | cons c1 u1 =>
        cases t2 with
        | nil =>
          rw [show String.intercalate "|" [b] = b from rfl] at heq
          have h3 := pipe_mem_intercalate_two a c1 u1
          rw [heq] at h3
          exact absurd h3 (h2 b (by simp)).2
        | cons c2 u2 =>
          rw [intercalate_cons_cons, intercalate_cons_cons] at heq
          have hd := congrArg String.data heq
          simp only [String.data_append, show ("|" : String).data = ['|'] from rfl,
            List.append_assoc, List.singleton_append] at hd
          have hsp := sepFree_append_inj (h1 a (by simp)).2 (h2 b (by simp)).2 hd
          have hab : a = b := by
            apply String.ext
            exact hsp.1
          have htail : String.intercalate "|" (c1 :: u1) = String.intercalate "|" (c2 :: u2) := by
            apply String.ext
            exact hsp.2
          have hrest := ih (c2 :: u2) (fun x hx => h1 x (List.mem_cons_of_mem a hx))
            (fun x hx => h2 x (List.mem_cons_of_mem b hx)) htail
          rw [hab, hrest]

set_option maxRecDepth 8000 in
/-- C10 counterexample: the claim says any change to the extra-argument
list — including reordering — changes the build identity and forces a
rebuild; but the reorderings ["a", "a|a"] and ["a|a", "a"] have equal
pipe-joins, hence the same identity, and after committing with the first
list the freshness check still reports fresh with the second. -/
theorem C10_counterexample :
    GetBuildHash ["a", "a|a"] = GetBuildHash ["a|a", "a"] ∧
    (["a", "a|a"] : List String) ≠ ["a|a", "a"] ∧
    (CMakeLibrary.IsHashRelevant ⟨.ok "g"⟩ ["a|a", "a"]
      ((InstallLibrary (.cmake ["a", "a|a"]) ⟨.ok "g"⟩ false ⟨true, false⟩
        ⟨.absent, false⟩).2.1).record).1 =
      .ok true := by
  refine ⟨by decide, by decide, by decide⟩

/-- C10 amended: the build identity is the MD5 digest of the extra
arguments joined with the pipe separator, so it distinguishes exactly the
joined strings: lists with equal joins (such as reorderings of ["a", "a|a"])
share an identity and keep the cache fresh, while for lists of nonempty
pipe-free arguments the join is injective, so any change — including
reordering — changes the digest input. -/
theorem C10_amended :
    (∀ l1 l2 : List String, String.intercalate "|" l1 = String.intercalate "|" l2 →
      GetBuildHash l1 = GetBuildHash l2) ∧
    (∀ l1 l2 : List String, (∀ s ∈ l1, s ≠ "" ∧ '|' ∉ s.data) →
      (∀ s ∈ l2, s ≠ "" ∧ '|' ∉ s.data) → l1 ≠ l2 →
      String.intercalate "|" l1 ≠ String.intercalate "|" l2) := by
  constructor
  · intro l1 l2 h
    unfold GetBuildHash
    rw [h]
  · intro l1 l2 h1 h2 hne heq
    exact hne (intercalate_pipe_inj l1 l2 h1 h2 heq)

/-- Witness for C10 amended: equal joins give one identity; distinct
pipe-free argument lists give distinct joins. -/
theorem C10_witness :
    GetBuildHash ["a", "a|a"] = GetBuildHash ["a|a", "a"] ∧
    String.intercalate "|" ["x", "y"] ≠ String.intercalate "|" ["y", "x"] := by
  refine ⟨C10_amended.1 _ _ rfl, C10_amended.2 ["x", "y"] ["y", "x"] ?_ ?_ ?_⟩
  · decide
  · decide
  · decide

/-! ## Claim C3 -/

/-- C3: evaluation at the failing input.  The include glob matches a.h,
b.h and sub/c.h; the exclude pattern "b.*" would glob-match exactly b.h,
but it is dead — the literal path fixed/"b.*" does not exist, so the
ex_root.exists() guard skips the exclude glob and all three files are
copied.  With the wildcard-free exclude "b.h" the subtraction does apply,
as documented. -/
theorem C3_code_eval :
    ApplyRule fsEx3 "**/*.h" "inc" "b.*" =
      [.op (.copyFile ["a.h"] ["inc", "a.h"]),
       .op (.copyFile ["b.h"] ["inc", "b.h"]),
       .op (.copyFile ["sub", "c.h"] ["inc", "sub", "c.h"])] ∧
    globList fsEx3 [] (pathParts "b.*") = [["b.h"]] ∧
    ApplyRule fsEx3 "**/*.h" "inc" "b.h" =
      [.op (.copyFile ["a.h"] ["inc", "a.h"]),
       .op (.copyFile ["sub", "c.h"] ["inc", "sub", "c.h"])] := by
  refine ⟨by decide, by decide, by decide⟩

/-! ## Claim C4 -/

/-- C4 counterexample: the claim says a wildcard-free directory source is
copied to destSubdir/(name of the directory) and a supplied exclude is
ignored with a usage warning; but the code routes directories through the
glob branch: the directory's contents land directly at destSubdir (no
final "steam" component), no warning is issued, and the exclude is not
ignored — the exclude "." even cancels the copy entirely. -/
theorem C4_counterexample :
    ApplyRule fsEx4 "public/steam" "inc" "b.*" =
      [.op (.copyTree ["public", "steam"] ["inc"])] ∧
    RuleEv.op (.copyTree ["public", "steam"] ["inc", "steam"]) ∉
      ApplyRule fsEx4 "public/steam" "inc" "b.*" ∧
    ApplyRule fsEx4 "public/steam" "inc" "." = [] := by
  refine ⟨by decide, by decide, by decide⟩

theorem takeWhile_eq_self_of_all {α : Type} {p : α → Bool} {l : List α}
    (h : ∀ a ∈ l, p a = true) : l.takeWhile p = l := by
  induction l with
  | nil => rfl
  | cons a t ih =>
    rw [List.takeWhile_cons, if_pos (h a (by simp))]
    rw [ih (fun x hx => h x (by simp [hx]))]

theorem splitPattern_no_wildcard {parts : List String}
    (h : ∀ p ∈ parts, hasWildcard p = false) : SplitPattern parts = (parts, []) := by
  induction parts with
  | nil => rfl
  | cons p rest ih =>
    have hp := h p (by simp)
    have ht := ih (fun x hx => h x (by simp [hx]))
    simp [SplitPattern, hp, ht]

/-- C4 amended: a wildcard-free source pattern denoting an existing
directory goes through the glob branch: the single match is the directory
itself, whose path relative to the fixed prefix is empty, so copytree
merges the directory's contents directly into destSubdir — without the
directory's own name appended and without any warning about a supplied
exclude pattern (the warning exists only for wildcard-free files); an
exclude pattern participates as ordinary glob subtraction, here assumed
ineffective (empty, or its literal path absent). -/
theorem C4_amended (fs : Fs) (pattern dst ex : String)
    (hw : ∀ p ∈ pathParts pattern, hasWildcard p = false)
    (hex : fsExistsPath fs (pathParts pattern) = true)
    (hnf : fsIsFile fs (pathParts pattern) = false)
    (hdir : fsIsDir fs (pathParts pattern) = true)
    (hexcl : ex = "" ∨ fsExistsPath fs (pathParts pattern ++ pathParts ex) = false) :
    ApplyRule fs pattern dst ex = [.op (.copyTree (pathParts pattern) (pathParts dst))] := by
  have hsplit := splitPattern_no_wildcard hw
  unfold ApplyRule
  rw [hsplit]
  simp only [hex, hnf, Bool.not_true, Bool.false_eq_true, if_false]
  have hglob : globList fs (pathParts pattern) [] = [pathParts pattern] := by
    simp [globList, hex]
  have hexm : (if ex ≠ "" then
      if fsExistsPath fs (pathParts pattern ++ pathParts ex) = true then
        globList fs (pathParts pattern) (pathParts ex)
      else []
    else []) = [] := by
    rcases hexcl with rfl | hne
    · simp
    · simp [hne]
  simp only [hglob]
  rcases hexcl with rfl | hne
  · simp [List.isPrefixOf_iff_prefix, hdir]
  · simp [hne, List.isPrefixOf_iff_prefix, hdir]

/-- Witness for C4 amended: the concrete directory rule of the
counterexample derives from the general statement. -/
theorem C4_witness :
    ApplyRule fsEx4 "public/steam" "inc" "x" =
      [.op (.copyTree ["public", "steam"] ["inc"])] :=
  C4_amended fsEx4 "public/steam" "inc" "x" (by decide) (by decide) (by decide) (by decide)
    (Or.inr (by decide))

/-! ## Claim C8 -/

theorem splitPattern_eq_span (parts : List String) :
    SplitPattern parts =
      (parts.takeWhile (fun p => !hasWildcard p), parts.dropWhile (fun p => !hasWildcard p)) := by
  induction parts with
  | nil => rfl
  | cons p rest ih =>
    by_cases h : hasWildcard p = true
    · simp [SplitPattern, h, List.takeWhile_cons, List.dropWhile_cons]
    · simp [SplitPattern, h, List.takeWhile_cons, List.dropWhile_cons, ih]

/-- C8: pattern splitting takes the longest wildcard-free leading component
sequence as the fixed prefix and the remainder as the wildcard suffix;
every match copied by the glob branch is installed at destSubdir followed
by the match's path relative to the fixed-prefix directory; and the
documented example splits and installs exactly as stated. -/
theorem C8_split_and_targets :
    (∀ parts : List String, SplitPattern parts =
      (parts.takeWhile (fun p => !hasWildcard p), parts.dropWhile (fun p => !hasWildcard p))) ∧
    (∀ fs pattern dst ex p tgt,
      fsIsFile fs (SplitPattern (pathParts pattern)).1 = false →
      (RuleEv.op (CopyOp.copyFile p tgt) ∈ ApplyRule fs pattern dst ex ∨
       RuleEv.op (CopyOp.copyTree p tgt) ∈ ApplyRule fs pattern dst ex) →
      (SplitPattern (pathParts pattern)).1.isPrefixOf p = true ∧
      tgt = pathParts dst ++ p.drop (SplitPattern (pathParts pattern)).1.length) ∧
    SplitPattern (pathParts "redistributable_bin/**/*.dll") =
      (["redistributable_bin"], ["**", "*.dll"]) ∧
    ApplyRule fsEx8 "redistributable_bin/**/*.dll" "" "" =
      [.op (.copyFile ["redistributable_bin", "win64", "steam_api64.dll"]
        ["win64", "steam_api64.dll"])] := by
  refine ⟨splitPattern_eq_span, ?_, by decide, by decide⟩
  intro fs pattern dst ex p tgt hnf hmem
  rcases hsp : SplitPattern (pathParts pattern) with ⟨fixed, subParts⟩
  rw [hsp] at hnf
  unfold ApplyRule at hmem
  rw [hsp] at hmem
  by_cases hroot : fsExistsPath fs fixed = true
  case neg =>
    simp [hroot] at hmem
  case pos =>
    simp only [hroot, hnf, Bool.not_true, Bool.false_eq_true, if_false, List.mem_map] at hmem
    rcases hmem with ⟨q, hq, hfq⟩ | ⟨q, hq, hfq⟩ <;>
      by_cases hpre : fixed.isPrefixOf q = true
    · rw [if_pos hpre] at hfq
      by_cases hdir : fsIsDir fs q = true
      · rw [if_pos hdir] at hfq
        simp at hfq
      · rw [if_neg hdir] at hfq
        simp at hfq
        obtain ⟨rfl, htg⟩ := hfq
        exact ⟨hpre, htg.symm⟩
    · rw [if_neg hpre] at hfq
      simp at hfq
    · rw [if_pos hpre] at hfq
      by_cases hdir : fsIsDir fs q = true
      · rw [if_pos hdir] at hfq
        simp at hfq
        obtain ⟨rfl, htg⟩ := hfq
        exact ⟨hpre, htg.symm⟩
      · rw [if_neg hdir] at hfq
        simp at hfq
    · rw [if_neg hpre] at hfq
      simp at hfq

/-- Witness for C8: the target-mapping part applied at the documented
example match. -/
theorem C8_witness :
    (["redistributable_bin"] : List String).isPrefixOf
      ["redistributable_bin", "win64", "steam_api64.dll"] = true ∧
    (["win64", "steam_api64.dll"] : List String) =
      pathParts "" ++ (["redistributable_bin", "win64", "steam_api64.dll"] : List String).drop
        (SplitPattern (pathParts "redistributable_bin/**/*.dll")).1.length := by
  have h := C8_split_and_targets.2.1 fsEx8 "redistributable_bin/**/*.dll" "" ""
    ["redistributable_bin", "win64", "steam_api64.dll"] ["win64", "steam_api64.dll"]
    (by decide) (Or.inl (by decide))
  exact ⟨by decide, h.2⟩

/-! ## Claim C9 -/

set_option maxHeartbeats 3200000 in
/-- C9: within one CMake BuildAndInstall run, the install directory is
wiped at most once, never before a build step, and exactly once when the
first build succeeds; a configure failure, a first-reconfigure failure, or
a first-build failure leaves the pre-existing install contents intact with
no wipe; and in a fully successful Debug-after-Release run the final
install directory holds both configurations' artifacts — the Debug phase
does not wipe the Release install. -/
theorem C9_install_wipe_discipline (isMulti cfgOk buildDebug : Bool) (rel dbg : CfgPlan)
    (inst0 : List String) :
    (cfgOk = false →
      CMakeBuildAndInstall isMulti cfgOk rel dbg buildDebug inst0 =
        (⟨[.configure], inst0⟩, some "configure")) ∧
    (rel.buildOk = false →
      (CMakeBuildAndInstall isMulti cfgOk rel dbg buildDebug inst0).1.installDir = inst0 ∧
      wipeCount (CMakeBuildAndInstall isMulti cfgOk rel dbg buildDebug inst0).1.trace = 0) ∧
    (isMulti = false → rel.reconfigureOk = false →
      (CMakeBuildAndInstall isMulti cfgOk rel dbg buildDebug inst0).1.installDir = inst0 ∧
      wipeCount (CMakeBuildAndInstall isMulti cfgOk rel dbg buildDebug inst0).1.trace = 0) ∧
    wipeCount (CMakeBuildAndInstall isMulti cfgOk rel dbg buildDebug inst0).1.trace ≤ 1 ∧
    wipeCount ((CMakeBuildAndInstall isMulti cfgOk rel dbg buildDebug inst0).1.trace.takeWhile
      (fun e => !isBuildStep e)) = 0 ∧
    (cfgOk = true → (isMulti = true ∨ rel.reconfigureOk = true) → rel.buildOk = true →
      wipeCount (CMakeBuildAndInstall isMulti cfgOk rel dbg buildDebug inst0).1.trace = 1) ∧
    (buildDebug = true → cfgOk = true →
      rel.reconfigureOk = true → rel.buildOk = true → rel.installOk = true →
      dbg.reconfigureOk = true → dbg.buildOk = true → dbg.installOk = true →
      (CMakeBuildAndInstall isMulti cfgOk rel dbg buildDebug inst0).1.installDir =
        [rel.name, dbg.name]) := by
  rcases rel with ⟨rn, rr, rb, ri⟩
  rcases dbg with ⟨dn, dr2, db2, di⟩
  cases cfgOk <;> cases isMulti <;> cases buildDebug <;> cases rr <;> cases rb <;> cases ri <;>
    cases dr2 <;> cases db2 <;> cases di <;>
    simp [CMakeBuildAndInstall, CMakeCfgLoop, wipeCount, isBuildStep,
      List.count_append, List.count_cons, List.count_nil, List.takeWhile]

/-- Witness for C9: the all-successful multi-config Debug run derives from
the general statement. -/
theorem C9_witness :
    wipeCount (CMakeBuildAndInstall true true ⟨"Release", true, true, true⟩
      ⟨"Debug", true, true, true⟩ true ["old"]).1.trace = 1 ∧
    (CMakeBuildAndInstall true true ⟨"Release", true, true, true⟩
      ⟨"Debug", true, true, true⟩ true ["old"]).1.installDir = ["Release", "Debug"] := by
  have h := C9_install_wipe_discipline true true true ⟨"Release", true, true, true⟩
    ⟨"Debug", true, true, true⟩ ["old"]
  exact ⟨h.2.2.2.2.2.1 rfl (Or.inl rfl) rfl,
    h.2.2.2.2.2.2 rfl rfl rfl rfl rfl rfl rfl rfl⟩

end Deps
